import Mathlib

/-!
Shallow embedding of the scheduled, concurrency-bounded, idempotent
backfill engine of the jiansoft stock-crawler repository, together with
proofs about the claims made by its specification.

The embedding follows the Rust source:
* `src/database/table/financial_statement.rs` — the persisted
  `financial_statement` table and its two SQL write paths
  (`upsert`, `upsert_earnings_per_share`);
* `src/internal/backfill/financial_statement.rs` — the quarterly
  financial-statement backfill task `execute`;
* `src/internal/scheduler.rs` — `run_and_log_task` and the job closures;
* `src/internal/util/http/mod.rs` — the global request `SEMAPHORE` and
  `request_send`;
* `src/internal/database/model/stock_word.rs` — `Entity` and its `Clone`
  implementation.

Machine-level types are modelled as follows: `rust_decimal::Decimal` is
an exact decimal number, and the only operations the modelled code
performs on it are equality comparisons with zero, so it is embedded as
`Int`; `chrono::DateTime<Local>` is an instant in time, used only as an
opaque stored value, and is embedded as `Int` as well (a timestamp).
External collaborators (the database, the Yahoo crawler, the Redis
cache backend) are modelled as an environment record supplying the
outcome of each call, and the side effects of a run are collected in an
explicit trace.
-/

/-- Model of `rust_decimal::Decimal`.  The embedded code only compares
decimals for equality (with `Decimal::ZERO` and with each other), which
`Int` models faithfully. -/
abbrev Decimal := Int

/-- Model of `chrono::DateTime<Local>`: an opaque instant, stored and
copied but never inspected by the embedded code. -/
abbrev Timestamp := Int

namespace FinStmt

/-- The row type of the `financial_statement` table, with exactly the
columns named by the `INSERT` statement of `FinancialStatement::upsert`
(`src/database/table/financial_statement.rs`).  The `serial` surrogate
key is a database-side sequence value that no modelled statement binds
or reads, so it is not part of the row model. -/
structure Row where
  security_code : String
  year : Int
  quarter : String
  gross_profit : Decimal
  operating_profit_margin : Decimal
  pre_tax_income : Decimal
  net_income : Decimal
  net_asset_value_per_share : Decimal
  sales_per_share : Decimal
  earnings_per_share : Decimal
  profit_before_tax : Decimal
  return_on_equity : Decimal
  return_on_assets : Decimal
  created_time : Timestamp
  updated_time : Timestamp
  deriving DecidableEq, Repr

/-- The in-memory `FinancialStatement` struct of
`src/database/table/financial_statement.rs` restricted to the fields the
modelled code reads or writes (all the bound columns; `serial` is never
bound by `upsert` or `upsert_earnings_per_share`). -/
structure FinancialStatement where
  updated_time : Timestamp
  created_time : Timestamp
  quarter : String
  security_code : String
  gross_profit : Decimal
  operating_profit_margin : Decimal
  pre_tax_income : Decimal
  net_income : Decimal
  net_asset_value_per_share : Decimal
  sales_per_share : Decimal
  earnings_per_share : Decimal
  profit_before_tax : Decimal
  return_on_equity : Decimal
  return_on_assets : Decimal
  year : Int
  deriving DecidableEq, Repr

/-- The natural key of the table: the `ON CONFLICT` target
`(security_code, "year", quarter)`. -/
abbrev Key := String × Int × String

/-- The natural key of a record, matching the SQL conflict target and the
`Keyable` implementation (security code, year, quarter). -/
def FinancialStatement.key (fs : FinancialStatement) : Key :=
  (fs.security_code, fs.year, fs.quarter)

/-- The row proposed by the `VALUES` list of `FinancialStatement::upsert`:
every column comes from the record being written. -/
def proposedRow (fs : FinancialStatement) : Row :=
  { security_code := fs.security_code
    year := fs.year
    quarter := fs.quarter
    gross_profit := fs.gross_profit
    operating_profit_margin := fs.operating_profit_margin
    pre_tax_income := fs.pre_tax_income
    net_income := fs.net_income
    net_asset_value_per_share := fs.net_asset_value_per_share
    sales_per_share := fs.sales_per_share
    earnings_per_share := fs.earnings_per_share
    profit_before_tax := fs.profit_before_tax
    return_on_equity := fs.return_on_equity
    return_on_assets := fs.return_on_assets
    created_time := fs.created_time
    updated_time := fs.updated_time }

/-- The stored table: at most one row per natural key.  Representing the
table as a map from the natural key enforces the uniqueness invariant of
the conflict target directly. -/
abbrev Table := Key → Option Row

/-- The `DO UPDATE SET` clause of `FinancialStatement::upsert`: every
mutable column and `updated_time` take the excluded (proposed) value;
`created_time` and the key columns are not listed, so they keep the
stored row's values (the key columns are equal anyway on a conflict). -/
def conflictUpdate (old : Row) (fs : FinancialStatement) : Row :=
  { proposedRow fs with created_time := old.created_time }

/-- `FinancialStatement::upsert` as a transformer of the stored table:
`INSERT ... ON CONFLICT (security_code,"year",quarter) DO UPDATE SET ...`.
When no row holds the natural key the proposed row is inserted; when one
does, the `DO UPDATE SET` clause rewrites it. -/
def upsert (fs : FinancialStatement) (t : Table) : Table :=
  fun k =>
    if k = fs.key then
      match t fs.key with
      | none => some (proposedRow fs)
      | some old => some (conflictUpdate old fs)
    else t k

/-- The row proposed by `upsert_earnings_per_share`, whose `INSERT` binds
only the key, `earnings_per_share`, `created_time` and `updated_time`;
the remaining columns take the table defaults, supplied here as an
explicit parameter `d` (their values never matter for the claims: the
insert happens only when no row exists). -/
def epsRow (d : Row) (fs : FinancialStatement) : Row :=
  { d with
    security_code := fs.security_code
    year := fs.year
    quarter := fs.quarter
    earnings_per_share := fs.earnings_per_share
    created_time := fs.created_time
    updated_time := fs.updated_time }

/-- `FinancialStatement::upsert_earnings_per_share` as a table
transformer: `INSERT ... ON CONFLICT (security_code,"year",quarter)
DO NOTHING` — on a conflict the stored row is kept untouched. -/
def upsert_earnings_per_share (d : Row) (fs : FinancialStatement) (t : Table) : Table :=
  fun k =>
    if k = fs.key then
      match t fs.key with
      | none => some (epsRow d fs)
      | some old => some old
    else t k

end FinStmt

namespace Backfill

open FinStmt

/-- Opaque database-error token (`sqlx`/`anyhow` errors carried by a
failed persistence call). -/
inductive DbErr where
  | err
  deriving DecidableEq, Repr

/-- Opaque fetch-error token (a failed `yahoo::profile::visit`). -/
inductive FetchErr where
  | err
  deriving DecidableEq, Repr

/-- Opaque Redis-error token. -/
inductive RedisErr where
  | err
  deriving DecidableEq, Repr

/-- The umbrella `anyhow::Error` of the task, tagged by origin. -/
inductive Err where
  | redis (e : RedisErr)
  | db (e : DbErr)
  deriving DecidableEq, Repr

/-- Observable condition of the Redis sentinel entry when the task reads
it: the backend may fail, the key may be absent or expired, or a boolean
value may be present. -/
inductive CacheBackend where
  | failure
  | absent
  | expired
  | present (b : Bool)
  deriving DecidableEq, Repr

/-- Modelled from the spec: `get_bool` of the Redis client
(`nosql::redis::CLIENT`, a module that is not among the sources here;
only its call site in the backfill is).  The spec's contract is
"`get(key) → bool` (absent/expired = false, never errors the caller's
control flow — on cache-backend failure, treat as false so the task
proceeds rather than silently never running)".  The Rust signature is a
`Result` (the call site applies `?`), so the model keeps the `Except`
shape, but by the contract the error branch is never produced. -/
def get_bool (c : CacheBackend) : Except RedisErr Bool :=
  match c with
  | .present b => .ok b
  | _ => .ok false

/-- The fields of `yahoo::profile::Profile` that the backfill and the
`From<yahoo::profile::Profile> for FinancialStatement` conversion read
(the crawler module itself is external to the modelled core). -/
structure Profile where
  security_code : String
  year : Int
  quarter : String
  gross_profit : Decimal
  operating_profit_margin : Decimal
  pre_tax_income : Decimal
  net_income : Decimal
  net_asset_value_per_share : Decimal
  sales_per_share : Decimal
  earnings_per_share : Decimal
  profit_before_tax : Decimal
  return_on_equity : Decimal
  return_on_assets : Decimal
  deriving DecidableEq, Repr

/-- `FinancialStatement::from(profile)`
(`src/database/table/financial_statement.rs`): starts from
`FinancialStatement::new`, stamps both time columns with `Local::now()`
(the parameter `now`), and copies every financial field and the window
from the profile. -/
def entityFromProfile (now : Timestamp) (p : Profile) : FinancialStatement :=
  { updated_time := now
    created_time := now
    quarter := p.quarter
    security_code := p.security_code
    gross_profit := p.gross_profit
    operating_profit_margin := p.operating_profit_margin
    pre_tax_income := p.pre_tax_income
    net_income := p.net_income
    net_asset_value_per_share := p.net_asset_value_per_share
    sales_per_share := p.sales_per_share
    earnings_per_share := p.earnings_per_share
    profit_before_tax := p.profit_before_tax
    return_on_equity := p.return_on_equity
    return_on_assets := p.return_on_assets
    year := p.year }

/-- The fields and predicates of the stock entity
(`model::stock::Entity`) that the backfill loop uses: its symbol, the
`is_preference_shares` test, and the stored net asset value per share. -/
structure Stock where
  stock_symbol : String
  is_preference_shares : Bool
  net_asset_value_per_share : Decimal
  deriving DecidableEq, Repr

/-- One run's environment: the outcome every external collaborator would
give to each call the task can make.  `year`/`quarter` are the target
window, computed in the source from `Local::now() - 125 days` and
`month_to_quarter` — deterministic in the wall clock and independent of
the collaborators. -/
structure Env where
  cache : CacheBackend
  year : Int
  quarter : String
  now : Timestamp
  fetch_stocks : Except DbErr (List Stock)
  visit : String → Except FetchErr Profile
  upsert_result : FinancialStatement → Except DbErr Unit
  nav_update_result : Stock → Except DbErr Unit
  update_last_eps_result : Except DbErr Unit
  redis_set_result : Except RedisErr Unit

/-- The observable side effects of one run, in program order: the
sentinel read, the missing-records query (Persistence Port read), each
Source Adapter call, each upsert call (Persistence Port write), each
net-asset-value rollup update, the `update_last_eps` rollup, and the
sentinel write. -/
inductive Effect where
  | cache_get (key : String)
  | db_read_missing (year : Int) (quarter : String)
  | fetch (symbol : String)
  | upsert_call (fs : FinancialStatement)
  | nav_update (symbol : String)
  | update_last_eps
  | cache_set (key : String) (value : Bool) (ttl : Nat)
  deriving DecidableEq, Repr

/-- The sentinel key of the quarterly financial-statement task. -/
def cache_key : String := "financial_statement::yahoo"

/-- The TTL passed to the sentinel write: `60 * 60 * 24 * 7` seconds. -/
def ttl_seconds : Nat := 60 * 60 * 24 * 7

/-- One iteration of the work-item loop of `execute`
(`src/internal/backfill/financial_statement.rs`, lines 23–77):
preference shares are skipped; a failed visit is logged and skipped; a
window mismatch is logged and skipped before any write; an upsert
failure is logged and skipped; on upsert success the optional
net-asset-value rollup runs (its failure only logged), and then the
counter self-addition `success_update_count += success_update_count`
executes.  Returns the new counter value and the iteration's effects. -/
def step (env : Env) (count : Int) (stock : Stock) : Int × List Effect :=
  if stock.is_preference_shares then (count, [])
  else
    match env.visit stock.stock_symbol with
    | .error _ => (count, [.fetch stock.stock_symbol])
    | .ok profile =>
      if env.year ≠ profile.year ∨ env.quarter ≠ profile.quarter then
        (count, [.fetch stock.stock_symbol])
      else
        let fs := entityFromProfile env.now profile
        match env.upsert_result fs with
        | .error _ => (count, [.fetch stock.stock_symbol, .upsert_call fs])
        | .ok _ =>
          let navEffs :=
            if stock.net_asset_value_per_share = 0 ∧ fs.net_asset_value_per_share ≠ 0 then
              [Effect.nav_update stock.stock_symbol]
            else []
          (count + count, [.fetch stock.stock_symbol, .upsert_call fs] ++ navEffs)

/-- The `for stock in stocks` loop, threading `success_update_count` and
accumulating effects in program order. -/
def runLoopFrom (env : Env) (count : Int) (stocks : List Stock) : Int × List Effect :=
  match stocks with
  | [] => (count, [])
  | stock :: rest =>
    let r := step env count stock
    let r2 := runLoopFrom env r.1 rest
    (r2.1, r.2 ++ r2.2)

/-- The whole work-item loop, starting the counter at 0
(`let mut success_update_count = 0;`). -/
def runLoop (env : Env) (stocks : List Stock) : Int × List Effect :=
  runLoopFrom env 0 stocks

/-- The tail of `execute` after the loop: the sentinel write
`CLIENT.set(cache_key, true, 60*60*24*7)` with its `?`, then `Ok(())`. -/
def finish (env : Env) (effs : List Effect) : Except Err Unit × List Effect :=
  let effs2 := effs ++ [Effect.cache_set cache_key true ttl_seconds]
  match env.redis_set_result with
  | .error e => (.error (.redis e), effs2)
  | .ok _ => (.ok (), effs2)

/-- `backfill::financial_statement::execute`
(`src/internal/backfill/financial_statement.rs`): read the sentinel
(with `?`), return `Ok` at once when it is set; query the missing
records (with `?`); run the loop; run `update_last_eps` (with `?`) only
when the counter is positive; finally write the sentinel (with `?`). -/
def execute (env : Env) : Except Err Unit × List Effect :=
  match get_bool env.cache with
  | .error e => (.error (.redis e), [.cache_get cache_key])
  | .ok is_jump =>
    if is_jump then (.ok (), [.cache_get cache_key])
    else
      match env.fetch_stocks with
      | .error e =>
          (.error (.db e), [.cache_get cache_key, .db_read_missing env.year env.quarter])
      | .ok stocks =>
          let r := runLoop env stocks
          let effs :=
            [Effect.cache_get cache_key, Effect.db_read_missing env.year env.quarter] ++ r.2
          if r.1 > 0 then
            match env.update_last_eps_result with
            | .error e => (.error (.db e), effs ++ [.update_last_eps])
            | .ok _ => finish env (effs ++ [.update_last_eps])
          else finish env effs

end Backfill

namespace Scheduler

/-- A line written through the async file logger (`logging`), tagged by
level. -/
inductive LogEntry where
  | info (msg : String)
  | error (msg : String)
  deriving DecidableEq, Repr

/-- Opaque error returned by a scheduled task (`anyhow::Error`). -/
inductive TaskErr where
  | err
  deriving DecidableEq, Repr

/-- `run_and_log_task` (`src/internal/scheduler.rs`, lines 43–58): runs
the bound task, matches on its outcome, logs success or failure, and
returns unit either way — the task's error is consumed here and never
propagated.  Modelled as the log the wrapper writes, given the task's
outcome; the `format!` interpolations of the error value are opaque and
elided from the message text. -/
def run_and_log_task (task_name : String) (outcome : Except TaskErr Unit) : List LogEntry :=
  [LogEntry.info ("開始 " ++ task_name)] ++
    (match outcome with
     | .ok _ => [LogEntry.info (task_name ++ " executed successfully.")]
     | .error _ => [LogEntry.error ("Failed to " ++ task_name)]) ++
    [LogEntry.info ("結束 " ++ task_name)]

/-- Task-name constant of the quarterly financial-statement backfill. -/
def BACKFILL_FINANCIAL_STATEMENT_QUARTER : String :=
  "backfill::financial_statement::quarter::execute"

/-- Task-name constant of the emerging-stock net-asset-value backfill. -/
def BACKFILL_NET_ASSET_VALUE_EMERGING : String :=
  "backfill::net_asset_value_per_share::emerging::execute"

/-- The 01:00 job closure (`one_am_job`, `src/internal/scheduler.rs`,
lines 67–83): runs the quarterly financial-statement backfill through
`run_and_log_task`, then — unconditionally, whatever the first outcome —
the emerging net-asset-value backfill through `run_and_log_task`.
Modelled over the two tasks' outcomes. -/
def one_am_job_body (o1 o2 : Except TaskErr Unit) : List LogEntry :=
  run_and_log_task BACKFILL_FINANCIAL_STATEMENT_QUARTER o1 ++
    run_and_log_task BACKFILL_NET_ASSET_VALUE_EMERGING o2

/-- A fire of the scheduler: each trigger's job body runs independently;
the logs of one fire are the concatenation of the job bodies, none of
which can abort another (every body is a total function into a log). -/
def fire_all (bodies : List (List LogEntry)) : List LogEntry :=
  bodies.flatten

end Scheduler

namespace HttpGate

/-- The number of permits the global request semaphore is created with
(`src/internal/util/http/mod.rs`, lines 16–19):
`let cpus = num_cpus::get(); Semaphore::new(cpus * 4)` — four times the
number of available parallel-execution units. -/
def max_concurrent_requests (cpus : Nat) : Nat := cpus * 4

/-- Identifier of a routine requesting or holding a permit. -/
abbrev CallerId := Nat

/-- Events on the global request semaphore. -/
inductive SemEvent where
  | acquire (id : CallerId)
  | release (id : CallerId)
  deriving DecidableEq, Repr

/-- Small-step semantics of `tokio::sync::Semaphore` with `cap` permits
as `request_send` uses it: the state is the list of callers currently
holding a permit.  An `acquire` completes only while fewer than `cap`
permits are outstanding — a caller beyond the cap has no enabled step
and stays blocked until a `release` frees a permit.  A `release` by a
holder removes it from the state. -/
inductive SemStep (cap : Nat) : List CallerId → SemEvent → List CallerId → Prop where
  | acquire {s : List CallerId} {id : CallerId} :
      id ∉ s → s.length < cap → SemStep cap s (.acquire id) (id :: s)
  | release {s : List CallerId} {id : CallerId} :
      id ∈ s → SemStep cap s (.release id) (s.erase id)

/-- The semaphore states reachable from process start, when no permit is
outstanding. -/
inductive SemReach (cap : Nat) : List CallerId → Prop where
  | init : SemReach cap []
  | next {s t : List CallerId} {e : SemEvent} :
      SemReach cap s → SemStep cap s e t → SemReach cap t

/-- Opaque error of `rb.send()`. -/
inductive HttpErr where
  | err
  deriving DecidableEq, Repr

/-- The semaphore events of one `request_send` call
(`src/internal/util/http/mod.rs`, lines 220–242) by caller `id` whose
`rb.send()` finishes with `outcome`: the permit is taken just before the
send (`let _permit = SEMAPHORE.acquire().await;`) and dropped when the
`_permit` binding leaves scope, after the send returns — on success and
on failure alike. -/
def request_send_events (id : CallerId) (outcome : Except HttpErr Unit) : List SemEvent :=
  match outcome with
  | .ok _ => [.acquire id, .release id]
  | .error _ => [.acquire id, .release id]

end HttpGate

namespace StockWord

/-- `stock_word::Entity`
(`src/internal/database/model/stock_word.rs`, lines 8–14). -/
structure Entity where
  word_id : Int
  word : String
  created_time : Timestamp
  updated_time : Timestamp
  deriving DecidableEq, Repr

/-- The inherent method `Entity::clone` (lines 26–33): a field-by-field
copy; `self.word.to_string()` produces an equal string. -/
def Entity.clone (e : Entity) : Entity :=
  { word_id := e.word_id
    word := e.word
    created_time := e.created_time
    updated_time := e.updated_time }

/-- The body of `impl Clone for Entity` (lines 121–125) is
`self.clone()`.  Rust method resolution prefers inherent methods over
trait methods, so that call resolves to the inherent `Entity::clone`
above rather than recursing into the trait method being defined; the
embedding therefore delegates to the inherent copy and is a total
function. -/
def Entity.clone_trait_impl (e : Entity) : Entity :=
  Entity.clone e

end StockWord

namespace FinStmt

/-- One run's persisted-state effect: the successful upserts of a run
applied to the stored table in program order (`List.foldl` of `upsert`). -/
def applyRun (t : Table) (L : List FinancialStatement) : Table :=
  L.foldl (fun t fs => upsert fs t) t

/-- Pointwise view of one `upsert` at a fixed key `k`, as a function of
the current cell value only (proof infrastructure; `upsert_point` below
relates it to `upsert`). -/
def upPoint (k : Key) (c : Option Row) (fs : FinancialStatement) : Option Row :=
  if k = fs.key then
    some (match c with
          | none => proposedRow fs
          | some old => conflictUpdate old fs)
  else c

/-- Pointwise view of `applyRun` at a fixed key (proof infrastructure). -/
def applyPoint (k : Key) (c : Option Row) (L : List FinancialStatement) : Option Row :=
  L.foldl (upPoint k) c

/-- The first record of `L` whose natural key is `k` (proof
infrastructure). -/
def firstMatch (k : Key) : List FinancialStatement → Option FinancialStatement
  | [] => none
  | fs :: L => if k = fs.key then some fs else firstMatch k L

/-- Fold accumulating the last record whose natural key is `k` (proof
infrastructure). -/
def lastMatchFrom (k : Key) (acc : Option FinancialStatement) :
    List FinancialStatement → Option FinancialStatement
  | [] => acc
  | fs :: L => lastMatchFrom k (if k = fs.key then some fs else acc) L

/-- The last record of `L` whose natural key is `k` (proof
infrastructure). -/
def lastMatch (k : Key) (L : List FinancialStatement) : Option FinancialStatement :=
  lastMatchFrom k none L

end FinStmt

namespace Backfill

/-- The Source Adapter calls of a trace, in order. -/
def fetchAttempts (effs : List Effect) : List String :=
  effs.filterMap fun e =>
    match e with
    | Effect.fetch s => some s
    | _ => none

/-- The records passed to the Persistence Port's upsert in a trace, in
order. -/
def upsertRecords (effs : List Effect) : List FinStmt.FinancialStatement :=
  effs.filterMap fun e =>
    match e with
    | Effect.upsert_call fs => some fs
    | _ => none

/-- A concrete Source Adapter record used by the witnesses. -/
def demoProfile : Profile :=
  { security_code := "2330", year := 2023, quarter := "Q3"
    gross_profit := 1, operating_profit_margin := 2, pre_tax_income := 3
    net_income := 4, net_asset_value_per_share := 5, sales_per_share := 6
    earnings_per_share := 7, profit_before_tax := 8, return_on_equity := 9
    return_on_assets := 10 }

/-- A concrete work item used by the witnesses. -/
def demoStock : Stock :=
  { stock_symbol := "2330", is_preference_shares := false, net_asset_value_per_share := 0 }

/-- A concrete run environment used by the witnesses: the sentinel is
absent, one non-preference stock is missing its statement, and every
collaborator call succeeds with a window-matching record. -/
def demoEnv : Env :=
  { cache := .absent, year := 2023, quarter := "Q3", now := 11
    fetch_stocks := .ok [demoStock]
    visit := fun _ => .ok demoProfile
    upsert_result := fun _ => .ok ()
    nav_update_result := fun _ => .ok ()
    update_last_eps_result := .ok ()
    redis_set_result := .ok () }

end Backfill

namespace FinStmt

/-- A concrete stored row used by the witnesses. -/
def demoRow : Row :=
  { security_code := "2330", year := 2023, quarter := "Q3"
    gross_profit := 21, operating_profit_margin := 22, pre_tax_income := 23
    net_income := 24, net_asset_value_per_share := 25, sales_per_share := 26
    earnings_per_share := 27, profit_before_tax := 28, return_on_equity := 29
    return_on_assets := 30, created_time := 1, updated_time := 2 }

/-- A concrete record used by the witnesses, with the same natural key
as `demoRow` but different payload fields. -/
def demoFS : FinancialStatement :=
  { updated_time := 42, created_time := 41, quarter := "Q3", security_code := "2330"
    gross_profit := 31, operating_profit_margin := 32, pre_tax_income := 33
    net_income := 34, net_asset_value_per_share := 35, sales_per_share := 36
    earnings_per_share := 37, profit_before_tax := 38, return_on_equity := 39
    return_on_assets := 40, year := 2023 }

/-- A concrete one-row table used by the witnesses: exactly the natural
key of `demoRow` is populated. -/
def demoTable : Table :=
  fun k => if k = ("2330", 2023, "Q3") then some demoRow else none

end FinStmt

namespace Backfill

/-- Exhaustive description of the loop body: exactly one of the five
paths of `step` is taken — preference-share skip, fetch failure, window
mismatch, upsert failure, or upsert success followed by the optional
net-asset-value rollup and the counter self-addition. -/
theorem step_eq (env : Env) (c : Int) (s : Stock) :
    (s.is_preference_shares = true ∧ step env c s = (c, [])) ∨
    (s.is_preference_shares = false ∧
      ((∃ e, env.visit s.stock_symbol = .error e ∧
          step env c s = (c, [.fetch s.stock_symbol])) ∨
       (∃ p, env.visit s.stock_symbol = .ok p ∧
          (env.year ≠ p.year ∨ env.quarter ≠ p.quarter) ∧
          step env c s = (c, [.fetch s.stock_symbol])) ∨
       (∃ p, env.visit s.stock_symbol = .ok p ∧ env.year = p.year ∧ env.quarter = p.quarter ∧
          ((∃ e, env.upsert_result (entityFromProfile env.now p) = .error e ∧
              step env c s =
                (c, [.fetch s.stock_symbol, .upsert_call (entityFromProfile env.now p)])) ∨
           (env.upsert_result (entityFromProfile env.now p) = .ok () ∧
            ∃ nav, (nav = [] ∨ nav = [Effect.nav_update s.stock_symbol]) ∧
              step env c s =
                (c + c,
                  [.fetch s.stock_symbol, .upsert_call (entityFromProfile env.now p)] ++ nav)))))) := by
  by_cases hp : s.is_preference_shares = true
  · exact Or.inl ⟨hp, by unfold step; simp [hp]⟩
  · right
    refine ⟨Bool.not_eq_true _ |>.mp hp, ?_⟩
    cases hv : env.visit s.stock_symbol with
    | error e =>
      exact Or.inl ⟨e, rfl, by unfold step; simp [hp, hv]⟩
    | ok p =>
      by_cases hw : env.year ≠ p.year ∨ env.quarter ≠ p.quarter
      · exact Or.inr (Or.inl ⟨p, rfl, hw, by unfold step; simp [hp, hv, hw]⟩)
      · push_neg at hw
        refine Or.inr (Or.inr ⟨p, rfl, hw.1, hw.2, ?_⟩)
        cases hu : env.upsert_result (entityFromProfile env.now p) with
        | error e =>
          refine Or.inl ⟨e, rfl, ?_⟩
          unfold step
          simp [hp, hv, hu, hw.1, hw.2]
        | ok u =>
          refine Or.inr ⟨rfl, ?_⟩
          by_cases hn : s.net_asset_value_per_share = 0 ∧
              (entityFromProfile env.now p).net_asset_value_per_share ≠ 0
          · exact ⟨[Effect.nav_update s.stock_symbol], Or.inr rfl,
              by unfold step; simp [hp, hv, hu, hw.1, hw.2, hn]⟩
          · exact ⟨[], Or.inl rfl,
              by unfold step; simp [hp, hv, hu, hw.1, hw.2, hn]⟩

/-- The loop body's only write to the counter is the self-addition
`success_update_count += success_update_count`, so a zero counter stays
zero on every path. -/
theorem step_count_zero (env : Env) (s : Stock) : (step env 0 s).1 = 0 := by
  rcases step_eq env 0 s with ⟨_, h⟩ | ⟨_, ⟨_, _, h⟩ | ⟨_, _, _, h⟩ | ⟨_, _, _, _, ⟨_, _, h⟩ | ⟨_, _, _, h⟩⟩⟩ <;>
    simp [h]

/-- The whole loop keeps the counter at its initial zero. -/
theorem runLoopFrom_count_zero (env : Env) (stocks : List Stock) :
    (runLoopFrom env 0 stocks).1 = 0 := by
  induction stocks with
  | nil => rfl
  | cons s rest ih =>
    simp only [runLoopFrom]
    rw [step_count_zero]
    exact ih

/-- No iteration of the loop emits the `update_last_eps` effect. -/
theorem step_no_eps (env : Env) (c : Int) (s : Stock) :
    Effect.update_last_eps ∉ (step env c s).2 := by
  rcases step_eq env c s with ⟨_, h⟩ | ⟨_, ⟨_, _, h⟩ | ⟨_, _, _, h⟩ | ⟨_, _, _, _, ⟨_, _, h⟩ | ⟨_, nav, hn, h⟩⟩⟩
  · simp [h]
  · simp [h]
  · simp [h]
  · simp [h]
  · rcases hn with rfl | rfl <;> simp [h]

/-- The loop as a whole emits no `update_last_eps` effect. -/
theorem runLoopFrom_no_eps (env : Env) (c : Int) (stocks : List Stock) :
    Effect.update_last_eps ∉ (runLoopFrom env c stocks).2 := by
  induction stocks generalizing c with
  | nil => simp [runLoopFrom]
  | cons s rest ih =>
    simp only [runLoopFrom, List.mem_append]
    push_neg
    exact ⟨step_no_eps env c s, ih _⟩

/-- `finish` only appends the sentinel write to the accumulated trace. -/
theorem finish_effects (env : Env) (effs : List Effect) :
    (finish env effs).2 = effs ++ [Effect.cache_set cache_key true ttl_seconds] := by
  unfold finish
  cases env.redis_set_result <;> rfl

end Backfill

namespace FinStmt

/-- The conflict update never touches `created_time`. -/
theorem conflictUpdate_created (old : Row) (fs : FinancialStatement) :
    (conflictUpdate old fs).created_time = old.created_time := rfl

/-- The conflict update depends on the stored row only through its
`created_time`. -/
theorem conflictUpdate_congr {r1 r2 : Row} (fs : FinancialStatement)
    (h : r1.created_time = r2.created_time) :
    conflictUpdate r1 fs = conflictUpdate r2 fs := by
  unfold conflictUpdate
  rw [h]

/-- `upsert` acts on each cell through the pointwise `upPoint`. -/
theorem upsert_point (fs : FinancialStatement) (t : Table) (k : Key) :
    upsert fs t k = upPoint k (t k) fs := by
  unfold upsert upPoint
  by_cases h : k = fs.key
  · subst h
    cases ht : t fs.key <;> simp [ht]
  · simp [h]

/-- `applyRun` acts on each cell through the pointwise `applyPoint`. -/
theorem applyRun_point (L : List FinancialStatement) (t : Table) (k : Key) :
    applyRun t L k = applyPoint k (t k) L := by
  induction L generalizing t with
  | nil => rfl
  | cons fs L ih =>
    show applyRun (upsert fs t) L k = applyPoint k (t k) (fs :: L)
    rw [ih, upsert_point]
    rfl

/-- Folding for the last matching record from any accumulator. -/
theorem lastMatchFrom_acc (k : Key) (L : List FinancialStatement) :
    ∀ acc, lastMatchFrom k acc L =
      match lastMatch k L with
      | some x => some x
      | none => acc := by
  induction L with
  | nil => intro acc; simp [lastMatch, lastMatchFrom]
  | cons fs L ih =>
    intro acc
    show lastMatchFrom k (if k = fs.key then some fs else acc) L = _
    rw [ih]
    have h2 : lastMatch k (fs :: L) =
        match lastMatch k L with
        | some x => some x
        | none => if k = fs.key then some fs else none := by
      show lastMatchFrom k (if k = fs.key then some fs else none) L = _
      rw [ih]
    rw [h2]
    cases hl : lastMatch k L <;> by_cases h : k = fs.key <;> simp [h]

/-- Unfolding of `lastMatch` over a cons cell. -/
theorem lastMatch_cons (k : Key) (fs : FinancialStatement) (L : List FinancialStatement) :
    lastMatch k (fs :: L) =
      match lastMatch k L with
      | some x => some x
      | none => if k = fs.key then some fs else none := by
  show lastMatchFrom k (if k = fs.key then some fs else none) L = _
  rw [lastMatchFrom_acc]

/-- A key has a last matching record exactly when it has a first one. -/
theorem lastMatch_none_iff (k : Key) (L : List FinancialStatement) :
    lastMatch k L = none ↔ firstMatch k L = none := by
  induction L with
  | nil => simp [lastMatch, lastMatchFrom, firstMatch]
  | cons fs L ih =>
    rw [lastMatch_cons]
    cases hl : lastMatch k L <;> by_cases h : k = fs.key <;>
      simp [firstMatch, h, ← ih, hl]

/-- Pointwise run starting from a populated cell: the payload of the
last matching record wins and the stored `created_time` survives. -/
theorem applyPoint_some (k : Key) (L : List FinancialStatement) :
    ∀ r, applyPoint k (some r) L =
      some (match lastMatch k L with
            | none => r
            | some fsl => conflictUpdate r fsl) := by
  induction L with
  | nil => intro r; simp [applyPoint, lastMatch, lastMatchFrom]
  | cons fs L ih =>
    intro r
    show applyPoint k (upPoint k (some r) fs) L = _
    rw [lastMatch_cons]
    by_cases h : k = fs.key
    · have hu : upPoint k (some r) fs = some (conflictUpdate r fs) := by
        simp [upPoint, h]
      rw [hu, ih]
      cases hl : lastMatch k L with
      | none => simp [h]
      | some fsl =>
        simp only
        rw [conflictUpdate_congr fsl (conflictUpdate_created r fs)]
    · have hu : upPoint k (some r) fs = some r := by simp [upPoint, h]
      rw [hu, ih]
      cases hl : lastMatch k L <;> simp [h]

/-- Pointwise run starting from an empty cell: the first matching record
inserts (fixing `created_time`) and the last matching record's payload
wins. -/
theorem applyPoint_none (k : Key) (L : List FinancialStatement) :
    applyPoint k none L =
      match firstMatch k L with
      | none => none
      | some fsf =>
          some { proposedRow ((lastMatch k L).getD fsf) with
                 created_time := fsf.created_time } := by
  induction L with
  | nil => simp [applyPoint, firstMatch]
  | cons fs L ih =>
    show applyPoint k (upPoint k none fs) L = _
    by_cases h : k = fs.key
    · subst h
      have hu : upPoint fs.key none fs = some (proposedRow fs) := by simp [upPoint]
      have hf : firstMatch fs.key (fs :: L) = some fs := by simp [firstMatch]
      rw [hu, applyPoint_some, hf, lastMatch_cons]
      cases hl : lastMatch fs.key L with
      | none => simp [conflictUpdate, proposedRow]
      | some fsl => simp [conflictUpdate, proposedRow]
    · have hu : upPoint k none fs = none := by simp [upPoint, h]
      have hf : firstMatch k (fs :: L) = firstMatch k L := by simp [firstMatch, h]
      rw [hu, ih, hf, lastMatch_cons]
      cases hl : lastMatch k L <;> cases hfm : firstMatch k L <;> simp [h]

/-- One write is idempotent pointwise. -/
theorem upPoint_idem (k : Key) (c : Option Row) (fs : FinancialStatement) :
    upPoint k (upPoint k c fs) fs = upPoint k c fs := by
  by_cases h : k = fs.key
  · cases c with
    | none =>
      have h1 : conflictUpdate (proposedRow fs) fs = proposedRow fs := rfl
      simp [upPoint, h, h1]
    | some old =>
      have h1 : conflictUpdate (conflictUpdate old fs) fs = conflictUpdate old fs := rfl
      simp [upPoint, h, h1]
  · simp [upPoint, h]

/-- Applying `upsert` twice with the same record equals applying it
once. -/
theorem upsert_twice (fs : FinancialStatement) (t : Table) :
    upsert fs (upsert fs t) = upsert fs t := by
  funext k
  rw [upsert_point, upsert_point, upPoint_idem]

/-- Replaying a whole run's upsert sequence on its own result is a
no-op: the second pass only re-updates every touched key to the value
the first pass left, and `created_time` is preserved throughout. -/
theorem applyRun_twice (t : Table) (L : List FinancialStatement) :
    applyRun (applyRun t L) L = applyRun t L := by
  funext k
  rw [applyRun_point, applyRun_point]
  cases hc : t k with
  | some r =>
    rw [applyPoint_some, applyPoint_some]
    cases hl : lastMatch k L with
    | none => rfl
    | some fsl =>
      simp only
      rw [conflictUpdate_congr fsl (conflictUpdate_created r fsl)]
  | none =>
    rw [applyPoint_none]
    cases hf : firstMatch k L with
    | none => rw [applyPoint_none, hf]
    | some fsf =>
      rw [applyPoint_some]
      cases hl : lastMatch k L with
      | none => exact absurd ((lastMatch_none_iff k L).mp hl) (by simp [hf])
      | some fsl =>
        simp only [Option.getD_some]
        rfl

end FinStmt

namespace Backfill

open FinStmt

/-- `fetchAttempts` distributes over trace concatenation. -/
theorem fetchAttempts_append (a b : List Effect) :
    fetchAttempts (a ++ b) = fetchAttempts a ++ fetchAttempts b := by
  simp [fetchAttempts]

/-- Each iteration makes exactly one Source Adapter call, except for
preference shares — whatever the outcome of the call or of the write. -/
theorem step_fetchAttempts (env : Env) (c : Int) (s : Stock) :
    fetchAttempts (step env c s).2 =
      if s.is_preference_shares = true then [] else [s.stock_symbol] := by
  rcases step_eq env c s with ⟨hp, h⟩ |
    ⟨hp, ⟨_, _, h⟩ | ⟨_, _, _, h⟩ | ⟨_, _, _, _, ⟨_, _, h⟩ | ⟨_, nav, hn, h⟩⟩⟩
  · simp [h, hp, fetchAttempts]
  · simp [h, hp, fetchAttempts]
  · simp [h, hp, fetchAttempts]
  · simp [h, hp, fetchAttempts]
  · rcases hn with rfl | rfl <;> simp [h, hp, fetchAttempts]

/-- The loop attempts a fetch for every non-preference work item, in
order, regardless of any per-item failures. -/
theorem runLoopFrom_fetchAttempts (env : Env) (stocks : List Stock) :
    ∀ c, fetchAttempts (runLoopFrom env c stocks).2 =
      (stocks.filter fun s => !s.is_preference_shares).map Stock.stock_symbol := by
  induction stocks with
  | nil => intro c; simp [runLoopFrom, fetchAttempts]
  | cons s rest ih =>
    intro c
    show fetchAttempts ((step env c s).2 ++ (runLoopFrom env (step env c s).1 rest).2) = _
    rw [fetchAttempts_append, step_fetchAttempts, ih]
    by_cases hp : s.is_preference_shares = true <;> simp [hp]

/-- Any record the loop body hands to the upsert carries the requested
window: the mismatch guard rejects everything else before the write. -/
theorem step_upsert_window (env : Env) (c : Int) (s : Stock) (fs : FinancialStatement)
    (h : Effect.upsert_call fs ∈ (step env c s).2) :
    fs.year = env.year ∧ fs.quarter = env.quarter := by
  rcases step_eq env c s with ⟨hp, he⟩ |
    ⟨hp, ⟨_, _, he⟩ | ⟨_, _, _, he⟩ | ⟨p, hv, hy, hq, ⟨_, _, he⟩ | ⟨_, nav, hn, he⟩⟩⟩
  · rw [he] at h; simp at h
  · rw [he] at h; simp at h
  · rw [he] at h; simp at h
  · rw [he] at h
    simp at h
    exact ⟨by rw [h]; exact hy.symm, by rw [h]; exact hq.symm⟩
  · rcases hn with rfl | rfl <;>
      (rw [he] at h; simp at h;
       exact ⟨by rw [h]; exact hy.symm, by rw [h]; exact hq.symm⟩)

/-- Lifting of `step_upsert_window` over the whole loop. -/
theorem runLoopFrom_upsert_window (env : Env) (stocks : List Stock) :
    ∀ c fs, Effect.upsert_call fs ∈ (runLoopFrom env c stocks).2 →
      fs.year = env.year ∧ fs.quarter = env.quarter := by
  induction stocks with
  | nil => intro c fs h; simp [runLoopFrom] at h
  | cons s rest ih =>
    intro c fs h
    rw [show (runLoopFrom env c (s :: rest)).2 =
          (step env c s).2 ++ (runLoopFrom env (step env c s).1 rest).2 from rfl] at h
    rcases List.mem_append.mp h with h | h
    · exact step_upsert_window env c s fs h
    · exact ih _ fs h

end Backfill

namespace Backfill

open FinStmt

/-- When the sentinel read yields `true`, `execute` returns at once with
only the cache read in its trace. -/
theorem execute_jump (env : Env) (hb : get_bool env.cache = .ok true) :
    execute env = (.ok (), [Effect.cache_get cache_key]) := by
  simp [execute, hb]

/-- When the missing-records query fails, `execute` propagates the error
after only the cache read and the query attempt. -/
theorem execute_err_path (env : Env) (e : DbErr)
    (hb : get_bool env.cache = .ok false) (hf : env.fetch_stocks = .error e) :
    execute env =
      (.error (.db e),
        [Effect.cache_get cache_key, Effect.db_read_missing env.year env.quarter]) := by
  simp [execute, hb, hf]

/-- When the sentinel is clear and the query succeeds, `execute` runs
the loop and then the tail `finish` — the `update_last_eps` branch is
dead because the counter is provably zero. -/
theorem execute_ok_path (env : Env) (stocks : List Stock)
    (hb : get_bool env.cache = .ok false) (hf : env.fetch_stocks = .ok stocks) :
    execute env = finish env
      ([Effect.cache_get cache_key, Effect.db_read_missing env.year env.quarter] ++
        (runLoop env stocks).2) := by
  simp only [execute, hb, hf]
  simp only [runLoop, runLoopFrom_count_zero]
  simp

/-- No run of the task ever calls `update_last_eps`. -/
theorem execute_no_eps (env : Env) : Effect.update_last_eps ∉ (execute env).2 := by
  rcases hgb : get_bool env.cache with e | b
  · unfold execute
    rw [hgb]
    simp
  · cases b with
    | true => rw [execute_jump env hgb]; simp
    | false =>
      rcases hf : env.fetch_stocks with e | stocks
      · rw [execute_err_path env e hgb hf]; simp
      · rw [execute_ok_path env stocks hgb hf, finish_effects]
        simp [runLoop, runLoopFrom_no_eps env 0 stocks]

/-- Any record upserted during a run carries the run's requested
window. -/
theorem execute_upsert_window (env : Env) (fs : FinancialStatement)
    (h : Effect.upsert_call fs ∈ (execute env).2) :
    fs.year = env.year ∧ fs.quarter = env.quarter := by
  rcases hgb : get_bool env.cache with e | b
  · unfold execute at h
    rw [hgb] at h
    simp at h
  · cases b with
    | true => rw [execute_jump env hgb] at h; simp at h
    | false =>
      rcases hf : env.fetch_stocks with e | stocks
      · rw [execute_err_path env e hgb hf] at h; simp at h
      · rw [execute_ok_path env stocks hgb hf, finish_effects] at h
        simp [runLoop] at h
        exact runLoopFrom_upsert_window env stocks 0 fs h

end Backfill

/-- C1: a failure of the Sentinel Cache backend on the initial
is-already-done check is treated as "not done" (false), so the task
proceeds with its work — the quarterly financial-statement backfill's
`execute` never returns an error solely because the cache get failed:
the modelled `get_bool` yields `Ok false` on backend failure, and the
run goes on to the missing-records query. -/
theorem claim_cache_get_failure_treated_as_not_done (env : Backfill.Env)
    (h : env.cache = Backfill.CacheBackend.failure) :
    Backfill.get_bool env.cache = Except.ok false ∧
    Backfill.Effect.db_read_missing env.year env.quarter ∈ (Backfill.execute env).2 := by
  have hb : Backfill.get_bool env.cache = Except.ok false := by rw [h]; rfl
  refine ⟨hb, ?_⟩
  rcases hf : env.fetch_stocks with e | stocks
  · rw [Backfill.execute_err_path env e hb hf]; simp
  · rw [Backfill.execute_ok_path env stocks hb hf, Backfill.finish_effects]; simp

/-- Witness for C1 at a concrete environment whose cache backend
fails. -/
theorem claim_cache_get_failure_treated_as_not_done_witness :
    ({ Backfill.demoEnv with cache := Backfill.CacheBackend.failure } : Backfill.Env).cache =
      Backfill.CacheBackend.failure ∧
    Backfill.Effect.db_read_missing 2023 "Q3" ∈
      (Backfill.execute
        { Backfill.demoEnv with cache := Backfill.CacheBackend.failure }).2 :=
  ⟨rfl,
   (claim_cache_get_failure_treated_as_not_done
      { Backfill.demoEnv with cache := Backfill.CacheBackend.failure } rfl).2⟩

/-- C2: in a run not skipped by the sentinel, a failed missing-records
query makes `execute` return that error with no sentinel write at all;
a successful query leads — whatever the per-item outcomes — to the
sentinel write with the 7-day TTL of 604800 seconds. -/
theorem claim_read_abort_and_unconditional_sentinel (env : Backfill.Env)
    (h : Backfill.get_bool env.cache = Except.ok false) :
    (∀ e, env.fetch_stocks = Except.error e →
       (Backfill.execute env).1 = Except.error (Backfill.Err.db e) ∧
       ∀ v ttl, Backfill.Effect.cache_set Backfill.cache_key v ttl ∉
         (Backfill.execute env).2) ∧
    (∀ stocks, env.fetch_stocks = Except.ok stocks →
       Backfill.Effect.cache_set Backfill.cache_key true Backfill.ttl_seconds ∈
         (Backfill.execute env).2) ∧
    Backfill.ttl_seconds = 604800 := by
  refine ⟨?_, ?_, by decide⟩
  · intro e he
    rw [Backfill.execute_err_path env e h he]
    exact ⟨rfl, by simp⟩
  · intro stocks hs
    rw [Backfill.execute_ok_path env stocks h hs, Backfill.finish_effects]
    simp

/-- Witness for C2: the sentinel write happens in a concrete successful
run, and a concrete failed query aborts the run with that error. -/
theorem claim_read_abort_and_unconditional_sentinel_witness :
    Backfill.get_bool Backfill.demoEnv.cache = Except.ok false ∧
    Backfill.demoEnv.fetch_stocks = Except.ok [Backfill.demoStock] ∧
    Backfill.Effect.cache_set Backfill.cache_key true Backfill.ttl_seconds ∈
      (Backfill.execute Backfill.demoEnv).2 ∧
    (Backfill.execute
        { Backfill.demoEnv with fetch_stocks := Except.error Backfill.DbErr.err }).1 =
      Except.error (Backfill.Err.db Backfill.DbErr.err) := by
  refine ⟨rfl, rfl, ?_, ?_⟩
  · exact (claim_read_abort_and_unconditional_sentinel Backfill.demoEnv rfl).2.1
      [Backfill.demoStock] rfl
  · exact ((claim_read_abort_and_unconditional_sentinel
      { Backfill.demoEnv with fetch_stocks := Except.error Backfill.DbErr.err } rfl).1
      Backfill.DbErr.err rfl).1

/-- C3: every record handed to the Persistence Port's upsert during a
quarterly financial-statement run carries exactly the requested window —
a window-mismatched profile is skipped before any write call is made. -/
theorem claim_window_mismatch_never_upserted (env : Backfill.Env)
    (fs : FinStmt.FinancialStatement)
    (h : Backfill.Effect.upsert_call fs ∈ (Backfill.execute env).2) :
    fs.year = env.year ∧ fs.quarter = env.quarter :=
  Backfill.execute_upsert_window env fs h

/-- Witness for C3 at a concrete run in which an upsert call does
occur. -/
theorem claim_window_mismatch_never_upserted_witness :
    Backfill.Effect.upsert_call (Backfill.entityFromProfile 11 Backfill.demoProfile) ∈
      (Backfill.execute Backfill.demoEnv).2 ∧
    (Backfill.entityFromProfile 11 Backfill.demoProfile).year = Backfill.demoEnv.year := by
  have hmem : Backfill.Effect.upsert_call (Backfill.entityFromProfile 11 Backfill.demoProfile) ∈
      (Backfill.execute Backfill.demoEnv).2 := by decide
  exact ⟨hmem, (claim_window_mismatch_never_upserted Backfill.demoEnv _ hmem).1⟩

/-- C4: when the sentinel is present and unexpired (the cache get
returns true) the task returns success immediately, and its trace shows
zero Persistence Port reads, zero Source Adapter calls, zero upserts and
zero sentinel writes. -/
theorem claim_sentinel_present_noop (env : Backfill.Env)
    (h : env.cache = Backfill.CacheBackend.present true) :
    Backfill.execute env = (Except.ok (), [Backfill.Effect.cache_get Backfill.cache_key]) ∧
    (∀ y q, Backfill.Effect.db_read_missing y q ∉ (Backfill.execute env).2) ∧
    (∀ s, Backfill.Effect.fetch s ∉ (Backfill.execute env).2) ∧
    (∀ fs, Backfill.Effect.upsert_call fs ∉ (Backfill.execute env).2) ∧
    (∀ k v ttl, Backfill.Effect.cache_set k v ttl ∉ (Backfill.execute env).2) := by
  have hb : Backfill.get_bool env.cache = Except.ok true := by rw [h]; rfl
  have he := Backfill.execute_jump env hb
  refine ⟨he, ?_, ?_, ?_, ?_⟩ <;> (intros; rw [he]; simp)

/-- Witness for C4 at a concrete environment with the sentinel set. -/
theorem claim_sentinel_present_noop_witness :
    ({ Backfill.demoEnv with cache := Backfill.CacheBackend.present true } : Backfill.Env).cache =
      Backfill.CacheBackend.present true ∧
    Backfill.execute { Backfill.demoEnv with cache := Backfill.CacheBackend.present true } =
      (Except.ok (), [Backfill.Effect.cache_get Backfill.cache_key]) :=
  ⟨rfl,
   (claim_sentinel_present_noop
      { Backfill.demoEnv with cache := Backfill.CacheBackend.present true } rfl).1⟩

/-- C5: in every reachable state of the request semaphore — created with
`max_concurrent_requests cpus = cpus * 4` permits — at most that many
permits are outstanding; an acquire is only enabled below the cap
(excess callers stay blocked), and `request_send` releases its permit
when the request scope exits, on success and failure alike. -/
theorem claim_concurrency_cap (cpus : Nat) (s : List HttpGate.CallerId)
    (h : HttpGate.SemReach (HttpGate.max_concurrent_requests cpus) s)
    (id : HttpGate.CallerId) (oc : Except HttpGate.HttpErr Unit) :
    s.length ≤ HttpGate.max_concurrent_requests cpus ∧
    (HttpGate.request_send_events id oc).getLast? = some (HttpGate.SemEvent.release id) ∧
    HttpGate.SemEvent.acquire id ∈ HttpGate.request_send_events id oc := by
  refine ⟨?_, ?_, ?_⟩
  · induction h with
    | init => simp
    | next hr hs ih =>
      cases hs with
      | acquire hnin hlt => simpa using hlt
      | release hmem =>
          exact le_trans (List.Sublist.length_le (List.erase_sublist _ _)) ih
  · cases oc <;> rfl
  · cases oc <;> simp [HttpGate.request_send_events]

/-- Witness for C5: one caller holding a permit is a reachable state on
a one-unit machine and respects the cap of four. -/
theorem claim_concurrency_cap_witness :
    HttpGate.SemReach (HttpGate.max_concurrent_requests 1) [7] ∧
    ([7] : List HttpGate.CallerId).length ≤ HttpGate.max_concurrent_requests 1 ∧
    (HttpGate.request_send_events 7 (Except.error HttpGate.HttpErr.err)).getLast? =
      some (HttpGate.SemEvent.release 7) := by
  have hr : HttpGate.SemReach (HttpGate.max_concurrent_requests 1) [7] :=
    HttpGate.SemReach.next HttpGate.SemReach.init
      (HttpGate.SemStep.acquire (by simp) (by decide))
  have hc := claim_concurrency_cap 1 [7] hr 7 (Except.error HttpGate.HttpErr.err)
  exact ⟨hr, hc.1, hc.2.1⟩

/-- C6: the success counter is only ever added to itself starting from
0, so it is 0 when the loop ends for every environment and work-item
set, and the derived rollup `update_last_eps` is never invoked in any
run. -/
theorem claim_success_counter_dead (env : Backfill.Env) (stocks : List Backfill.Stock) :
    (Backfill.runLoop env stocks).1 = 0 ∧
    Backfill.Effect.update_last_eps ∉ (Backfill.execute env).2 :=
  ⟨Backfill.runLoopFrom_count_zero env stocks, Backfill.execute_no_eps env⟩

/-- C7: per-item and per-trigger failure isolation — the loop attempts a
fetch for every non-preference work item no matter which earlier items
failed, and in the 01:00 job closure the second task's wrapper log
appears whatever the first task's outcome, `run_and_log_task` always
returning a log instead of propagating the error. -/
theorem claim_failure_isolation (env : Backfill.Env) (stocks : List Backfill.Stock)
    (o1 o2 : Except Scheduler.TaskErr Unit) :
    Backfill.fetchAttempts (Backfill.runLoop env stocks).2 =
      (stocks.filter fun s => !s.is_preference_shares).map Backfill.Stock.stock_symbol ∧
    Scheduler.LogEntry.info ("開始 " ++ Scheduler.BACKFILL_NET_ASSET_VALUE_EMERGING) ∈
      Scheduler.one_am_job_body o1 o2 ∧
    Scheduler.run_and_log_task Scheduler.BACKFILL_FINANCIAL_STATEMENT_QUARTER o1 ≠ [] := by
  refine ⟨Backfill.runLoopFrom_fetchAttempts env stocks 0, ?_, ?_⟩
  · cases o2 <;> simp [Scheduler.one_am_job_body, Scheduler.run_and_log_task]
  · cases o1 <;> simp [Scheduler.run_and_log_task]

/-- C8: the upsert is repetition-insensitive — applying it twice with
the same record equals applying it once, and replaying the entire upsert
sequence of a run (the records of the run's upsert calls, unchanged
source responses) on its own result is a no-op, so two sequential runs
leave the same persisted state as one. -/
theorem claim_upsert_repetition_insensitive (fs : FinStmt.FinancialStatement)
    (t : FinStmt.Table) (env : Backfill.Env) :
    FinStmt.upsert fs (FinStmt.upsert fs t) = FinStmt.upsert fs t ∧
    FinStmt.applyRun (FinStmt.applyRun t (Backfill.upsertRecords (Backfill.execute env).2))
        (Backfill.upsertRecords (Backfill.execute env).2) =
      FinStmt.applyRun t (Backfill.upsertRecords (Backfill.execute env).2) :=
  ⟨FinStmt.upsert_twice fs t, FinStmt.applyRun_twice t _⟩

/-- C9: `upsert_earnings_per_share` only inserts, never overwrites —
when a row already holds the natural key the table is left completely
unchanged, other keys are never touched, and a write happens only when
no row with the key exists. -/
theorem claim_upsert_eps_insert_only (d : FinStmt.Row) (fs : FinStmt.FinancialStatement)
    (t : FinStmt.Table) :
    (∀ old, t fs.key = some old → FinStmt.upsert_earnings_per_share d fs t = t) ∧
    (∀ k, k ≠ fs.key → FinStmt.upsert_earnings_per_share d fs t k = t k) ∧
    (t fs.key = none →
      FinStmt.upsert_earnings_per_share d fs t fs.key = some (FinStmt.epsRow d fs)) := by
  refine ⟨?_, ?_, ?_⟩
  · intro old hold
    funext k
    by_cases hk : k = fs.key
    · simp [FinStmt.upsert_earnings_per_share, hk, hold]
    · simp [FinStmt.upsert_earnings_per_share, hk]
  · intro k hk
    simp [FinStmt.upsert_earnings_per_share, hk]
  · intro hnone
    simp [FinStmt.upsert_earnings_per_share, hnone]

/-- Witness for C9: a concrete populated row survives the partial upsert
of a record with the same key and different payload. -/
theorem claim_upsert_eps_insert_only_witness :
    FinStmt.demoTable FinStmt.demoFS.key = some FinStmt.demoRow ∧
    FinStmt.upsert_earnings_per_share FinStmt.demoRow FinStmt.demoFS FinStmt.demoTable =
      FinStmt.demoTable := by
  have h : FinStmt.demoTable FinStmt.demoFS.key = some FinStmt.demoRow := by decide
  exact ⟨h, (claim_upsert_eps_insert_only FinStmt.demoRow FinStmt.demoFS
    FinStmt.demoTable).1 FinStmt.demoRow h⟩

/-- C10: the `Clone` implementation of `stock_word::Entity` resolves to
the inherent `clone` (Rust prefers inherent methods), so it terminates —
it is a total function here — and returns an entity whose four fields
equal the original's. -/
theorem claim_stock_word_clone_fields (e : StockWord.Entity) :
    (StockWord.Entity.clone_trait_impl e).word_id = e.word_id ∧
    (StockWord.Entity.clone_trait_impl e).word = e.word ∧
    (StockWord.Entity.clone_trait_impl e).created_time = e.created_time ∧
    (StockWord.Entity.clone_trait_impl e).updated_time = e.updated_time :=
  ⟨rfl, rfl, rfl, rfl⟩
